import Mathlib

/-!
# Verification of the Connect-Four game engine

Shallow embedding of the Connect-Four Express engine
(`src/models/game.ts`, `src/models/board.ts`, TypeScript version) in Lean 4.

Conventions of the embedding:
* JavaScript array indexing `a[i]` that can yield `undefined` is modelled by
  `jsIdx?`, returning `Option`; a dereference of `undefined` (a TypeError
  crash) is modelled by propagating `none`.
* Database rows become Lean structures; each `db.query` becomes an explicit
  state update on a `GamesDB` value.  The source issues no transactions:
  every query commits individually, so partial updates persist on a later
  throw.
* `Math.floor(Math.random() * i)` is modelled by an oracle `rand : Nat → Nat`
  subject to the constraint `rand i < i` for `i ≥ 1` (the exact image of
  `floor (r * i)` for `r ∈ [0,1)`).
* Thrown exceptions are modelled by a `GameError` result: `typeError` for a
  property access on `undefined`, `runtimeError` for `throw new Error(...)`,
  `sqlError` for a query the database engine rejects, and the named game
  errors for the error classes of `gameErrors.ts` / `expressError.ts`.
-/

/-- JavaScript indexing `l[i]` on an array: `undefined` (here `none`) when the
index is negative or past the end. -/
def jsIdx? {α : Type} (l : List α) (i : Int) : Option α :=
  if i < 0 then none else l.get? i.toNat

/-- A board cell, `BoardCellFinalStateInterface` of `game.ts`:
`{ playerId: string | null; validCoordSets: number[][][] }`.
Coordinates `[y, x]` are modelled as pairs of integers. -/
structure BoardCell where
  playerId : Option String
  validCoordSets : List (List (Int × Int))
deriving DecidableEq, Repr

/-- `InitializedBoardType`: a matrix of board cells, row major, row 0 on top. -/
abbrev BoardData := List (List BoardCell)

/-- `gameState.board[y][x]` with JavaScript semantics: `none` models the
TypeError of dereferencing an `undefined` row or cell. -/
def boardCell? (b : BoardData) (y x : Int) : Option BoardCell :=
  match jsIdx? b y with
  | none => none
  | some row => jsIdx? row x

/-- Occupant of a cell: `board[y][x].playerId`, `none` when the cell is
out of range or empty. -/
def occupantAt (b : BoardData) (y x : Int) : Option String :=
  match boardCell? b y x with
  | none => none
  | some cell => cell.playerId

/-- `newBoardState[i] !== undefined` for the `height × width` matrix built by
`_initializeMatrix`: row `i` exists iff `0 ≤ i < height`. -/
def rowDef (h : Nat) (i : Int) : Bool :=
  0 ≤ i && i < (h : Int)

/-- `newBoardState[i][j] !== undefined`: row `i` exists and column `j` is
within its (constant) width. -/
def cellDef (h w : Nat) (i j : Int) : Bool :=
  rowDef h i && 0 ≤ j && j < (w : Int)

/-- The four coordinates pushed for the "up" direction. -/
def upLine (y x : Int) : List (Int × Int) :=
  [(y, x), (y - 1, x), (y - 2, x), (y - 3, x)]

/-- The four coordinates pushed for the "upLeft" direction. -/
def upLeftLine (y x : Int) : List (Int × Int) :=
  [(y, x), (y - 1, x - 1), (y - 2, x - 2), (y - 3, x - 3)]

/-- The four coordinates pushed for the "upRight" direction. -/
def upRightLine (y x : Int) : List (Int × Int) :=
  [(y, x), (y - 1, x + 1), (y - 2, x + 2), (y - 3, x + 3)]

/-- The four coordinates pushed for the "left" direction. -/
def leftLine (y x : Int) : List (Int × Int) :=
  [(y, x), (y, x - 1), (y, x - 2), (y, x - 3)]

/-- The four coordinates pushed for the "right" direction. -/
def rightLine (y x : Int) : List (Int × Int) :=
  [(y, x), (y, x + 1), (y, x + 2), (y, x + 3)]

/-- `_populateValidCoordSets(y, x)` of `Game.createInitializedBoard` (and of
`Board.initializeBoardData`, which is textually identical): the candidate
lines pushed for the cell `(y, x)`, in source push order
up, upLeft, upRight, left, right.  Each direction is guarded exactly by the
definedness tests of the source (`newBoardState[y-3] !== undefined`, then the
far endpoint of the direction). -/
def populateValidCoordSets (h w : Nat) (y x : Int) : List (List (Int × Int)) :=
  (if rowDef h (y - 3) then
      (if cellDef h w (y - 3) x then [upLine y x] else [])
      ++ (if cellDef h w (y - 3) (x - 3) then [upLeftLine y x] else [])
      ++ (if cellDef h w (y - 3) (x + 3) then [upRightLine y x] else [])
    else [])
  ++ (if cellDef h w y (x - 3) then [leftLine y x] else [])
  ++ (if cellDef h w y (x + 3) then [rightLine y x] else [])

/-- `Game.createInitializedBoard({height, width})`: every cell starts with a
`null` player and the precomputed candidate lines.  The two-phase source
construction (null matrix, then population) collapses to this single map
because the definedness checks of `_populateValidCoordSets` only consult the
matrix dimensions, which are fixed from the start. -/
def createInitializedBoard (h w : Nat) : BoardData :=
  (List.range h).map (fun (y : Nat) =>
    (List.range w).map (fun (x : Nat) =>
      { playerId := none,
        validCoordSets := populateValidCoordSets h w (y : Int) (x : Int) }))

example : (createInitializedBoard 6 7).length = 6 := by decide

example :
    boardCell? (createInitializedBoard 6 7) 5 0 =
      some { playerId := none,
             validCoordSets := [upLine 5 0, upRightLine 5 0, rightLine 5 0] } := by
  decide

example : boardCell? (createInitializedBoard 6 7) 6 0 = none := by decide

/-- `EndGameState` of `game.ts`: `state` is the numeric lifecycle code
({1: started/continuing, 2: won, 3: tied}). -/
structure EndGameState where
  state : Nat
  winningSet : Option (List (Int × Int))
  winningPlayerId : Option String
deriving DecidableEq, Repr

/-- The `validCoordSets.every(c => board[c].playerId !== null &&
board[c].playerId === playerId)` test of `checkForGameEnd`, short-circuiting
like `Array.every`; `none` models the TypeError of an out-of-range board
access inside the callback. -/
def lineEvery (b : BoardData) (pid : String) : List (Int × Int) → Option Bool
  | [] => some true
  | c :: rest =>
    match boardCell? b c.1 c.2 with
    | none => none
    | some cell =>
      if cell.playerId.isSome ∧ cell.playerId = some pid then lineEvery b pid rest
      else some false

/-- The inner `for (let j ...)` loop of `checkForGameEnd` over the candidate
lines of one placed cell; the fuel argument counts the remaining iterations
(`vcs.length - j`) so the recursion is structural.  The source reads the
reference occupant from `validCoordSets[j]` — the line indexed by the OUTER
line index `j` rather than a fixed anchor position — so the reference
coordinate is `line.get? j`, which is `undefined` once `j ≥ 4` (the crash is
modelled by `none`).  Returns `some (some (line, pid))` on a win, `some none`
when no line of this cell wins. -/
def checkCellLoop (b : BoardData) (vcs : List (List (Int × Int))) :
    Nat → Nat → Option (Option (List (Int × Int) × String))
  | _, 0 => some none
  | j, fuel + 1 =>
    match vcs.get? j with
    | none => some none
    | some line =>
      match line.get? j with
      | none => none
      | some ref =>
        match boardCell? b ref.1 ref.2 with
        | none => none
        | some refCell =>
          match refCell.playerId with
          | none => checkCellLoop b vcs (j + 1) fuel
          | some pid =>
            match lineEvery b pid line with
            | none => none
            | some true => some (some (line, pid))
            | some false => checkCellLoop b vcs (j + 1) fuel

/-- The inner line loop started at `j = 0` with exactly `vcs.length`
iterations available, as in the source `for (let j = 0; j < ...length; j++)`. -/
def checkCellFrom (b : BoardData) (vcs : List (List (Int × Int))) :
    Option (Option (List (Int × Int) × String)) :=
  checkCellLoop b vcs 0 vcs.length

/-- The outer `for (let i ...)` loop of `checkForGameEnd` over
`placedPieces`, followed by the tie check
`board[0].every(cell => cell.playerId !== null)`. -/
def checkPlacedLoop (b : BoardData) : List (Int × Int) → Option EndGameState
  | [] =>
    match b.head? with
    | none => none
    | some row0 =>
      if row0.all (fun cell => cell.playerId.isSome) then
        some { state := 3, winningSet := none, winningPlayerId := none }
      else
        some { state := 1, winningSet := none, winningPlayerId := none }
  | p :: rest =>
    match boardCell? b p.1 p.2 with
    | none => none
    | some cell =>
      match checkCellFrom b cell.validCoordSets with
      | none => none
      | some (some (line, pid)) =>
        some { state := 2, winningSet := some line, winningPlayerId := some pid }
      | some none => checkPlacedLoop b rest

/-- `Game.checkForGameEnd({board, placedPieces})`.  `none` models a TypeError
crash (notably via the `validCoordSets[j]` reference-occupant bug). -/
def checkForGameEnd (b : BoardData) (placedPieces : List (Int × Int)) :
    Option EndGameState :=
  checkPlacedLoop b placedPieces

/-- The win condition as §4.3 of the specification words it: some placed
coordinate has a candidate line all 4 of whose coordinates are occupied by
the same player as the anchor cell (the placed cell itself).  This is the
spec-side definition used to compare `checkForGameEnd` against; it is NOT
translated from the source. -/
def specAnchorWin (b : BoardData) (placedPieces : List (Int × Int)) : Bool :=
  placedPieces.any (fun p =>
    match boardCell? b p.1 p.2 with
    | none => false
    | some cell =>
      match cell.playerId with
      | none => false
      | some pid =>
        cell.validCoordSets.any (fun line =>
          line.all (fun c => occupantAt b c.1 c.2 = some pid)))

/-- A 6×7 board holding a single piece: player `pid` at `(5, 3)`. -/
def boardSingle53 (pid : String) : BoardData :=
  (List.range 6).map (fun y =>
    (List.range 7).map (fun x =>
      { playerId := if y = 5 ∧ x = 3 then some pid else none,
        validCoordSets := populateValidCoordSets 6 7 y x }))

example : checkForGameEnd (boardSingle53 "A") [(5, 3)] = none := by decide

example : specAnchorWin (boardSingle53 "A") [(5, 3)] = false := by decide

/-- Error outcomes of an engine operation.  `typeError` models a JavaScript
TypeError (property access on `undefined`), `runtimeError` a
`throw new Error(...)`, `sqlError` a query the database engine rejects
(syntax error or unknown column); the remaining constructors are the error
classes of `gameErrors.ts` and `expressError.ts`. -/
inductive GameError where
  | typeError
  | runtimeError
  | sqlError
  | notFound
  | tooFewPlayers
  | playerAlreadyExists
  | invalidGameState
  | notCurrentPlayer
  | invalidPiecePlacement
deriving DecidableEq, Repr

/-- A row of the `games` table, camel-cased as the model selects it.
`gameState` codes: {0: not started, 1: started, 2: won, 3: tied}
(schema default 1). -/
structure GameRecord where
  id : String
  height : Nat
  width : Nat
  gameState : Nat
  placedPieces : Option (List (Int × Int))
  board : Option BoardData
  winningSet : Option (List (Int × Int))
  currPlayerId : Option String
deriving DecidableEq, Repr

/-- A row of the `game_players` table. -/
structure GamePlayerRow where
  playerId : String
  gameId : String
  playOrder : Option Int
deriving DecidableEq, Repr

/-- The `id` and `ai` columns of a `players` row (the only ones the engine
reads). -/
structure PlayerRow where
  id : String
  ai : Bool
deriving DecidableEq, Repr

/-- A row of the `game_turns` table (the columns the engine writes). -/
structure TurnRow where
  gameId : String
  playerId : String
  location : Int × Int
deriving DecidableEq, Repr

/-- The durable store: the four tables the engine touches. -/
structure GamesDB where
  games : List GameRecord
  players : List PlayerRow
  gamePlayers : List GamePlayerRow
  turns : List TurnRow
deriving DecidableEq, Repr

/-- `SELECT ... FROM games WHERE id = $1` followed by `rows[0]`. -/
def findGame (db : GamesDB) (gameId : String) : Option GameRecord :=
  db.games.find? (fun g => g.id == gameId)

/-- `UPDATE games SET ... WHERE id = $1`: rewrite the matching rows. -/
def updateGameRow (db : GamesDB) (gameId : String) (f : GameRecord → GameRecord) :
    GamesDB :=
  { db with games := db.games.map (fun g => if g.id == gameId then f g else g) }

/-- The JavaScript destructuring swap
`[a[i], a[j]] = [a[j], a[i]]` on a list (identity when an index is out of
range, which the shuffle never produces). -/
def swapList {α : Type} (l : List α) (i j : Nat) : List α :=
  match l.get? i, l.get? j with
  | some a, some b => (l.set i b).set j a
  | _, _ => l

/-- The shuffle loop of `Game.startTurn` (also `fisherSort` of
`utilities.ts`): `for (let i = length - 1; i > 0; i--)` swapping `l[i]` with
`l[j]` where `j = Math.floor(Math.random() * i)`.  The oracle `rand i`
supplies that `j`; faithfulness to `floor(random * i)` is the side condition
`rand i < i` (note: `i`, not `i + 1`, in the source). -/
def fyRun {α : Type} (rand : Nat → Nat) : List α → Nat → List α
  | l, 0 => l
  | l, k + 1 => fyRun rand (swapList l (k + 1) (rand (k + 1))) k

/-- The complete shuffle: iterations `i = length - 1, ..., 1`. -/
def fisherYatesCode {α : Type} (rand : Nat → Nat) (l : List α) : List α :=
  fyRun rand l (l.length - 1)

/-- The `play_order = CASE WHEN player_id = '...' THEN i ... END` expression:
the first position of `pid` in the shuffled id list, `NULL` when absent. -/
def firstIdx? (pid : String) : List String → Option Int
  | [] => none
  | q :: rest => if q == pid then some 0 else (firstIdx? pid rest).map (· + 1)

/-- A `game_players ⋈ players` row as `startTurn` selects it. -/
structure GamePlayerAi where
  playerId : String
  playOrder : Option Int
  ai : Bool
deriving DecidableEq, Repr

/-- `SELECT game_players.player_id, game_players.play_order, players.ai FROM
game_players INNER JOIN players ON ... WHERE game_players.game_id = $1`. -/
def gamePlayersWithAi (db : GamesDB) (gameId : String) : List GamePlayerAi :=
  (db.gamePlayers.filter (fun r => r.gameId == gameId)).filterMap
    (fun r =>
      (db.players.find? (fun p => p.id == r.playerId)).map
        (fun p => { playerId := r.playerId, playOrder := r.playOrder, ai := p.ai }))

/-- `Game.startTurn(gameId)`.  When the game has no current player the play
order is assigned by shuffling the roster ids with `fisherYatesCode` and the
player at position 0 of the shuffled list becomes current (the source then
returns early).  Otherwise the player whose `play_order` follows the current
player's becomes current, wrapping from the last position to 0; any
inconsistency throws (`runtimeError`). -/
def startTurn (rand : Nat → Nat) (db : GamesDB) (gameId : String) :
    Option GameError × GamesDB :=
  match findGame db gameId with
  | none => (some GameError.typeError, db)
  | some g =>
    match g.currPlayerId with
    | none =>
      let playerIds :=
        (db.gamePlayers.filter (fun r => r.gameId == gameId)).map (·.playerId)
      let shuffled := fisherYatesCode rand playerIds
      let db1 :=
        { db with
          gamePlayers := db.gamePlayers.map (fun r =>
            if r.gameId == gameId then { r with playOrder := firstIdx? r.playerId shuffled }
            else r) }
      let db2 := updateGameRow db1 gameId
        (fun gg => { gg with currPlayerId := shuffled.head? })
      (none, db2)
    | some currPid =>
      let rows := gamePlayersWithAi db gameId
      match rows.find? (fun o => o.playerId == currPid) with
      | none => (some GameError.runtimeError, db)
      | some currRow =>
        if currRow.playOrder = some ((rows.length : Int) - 1) then
          match rows.find? (fun o => o.playOrder == some 0) with
          | none => (some GameError.runtimeError, db)
          | some zeroRow =>
            (none, updateGameRow db gameId
              (fun gg => { gg with currPlayerId := some zeroRow.playerId }))
        else
          match currRow.playOrder with
          | none => (some GameError.runtimeError, db)
          | some po =>
            match rows.find? (fun o => o.playOrder == some (po + 1)) with
            | none => (some GameError.runtimeError, db)
            | some nextRow =>
              (none, updateGameRow db gameId
                (fun gg => { gg with currPlayerId := some nextRow.playerId }))

/-- The `while (row < initGame.height)` scan of `_findEmptyCellInColumn`,
top row first; the fuel argument counts the remaining iterations
(`height - row`).  `some (some t)` = place at row `t`; the source returns
`row - 1` above the first occupied cell and `height - 1` when the loop
exhausts the column. -/
def findEmptyLoop (b : BoardData) (height : Nat) (col : Int) :
    Nat → Nat → Option (Option Int)
  | _, 0 => some (some ((height : Int) - 1))
  | row, fuel + 1 =>
    match boardCell? b (row : Int) col with
    | none => none
    | some cell =>
      if cell.playerId.isSome then some (some ((row : Int) - 1))
      else findEmptyLoop b height col (row + 1) fuel

/-- `_findEmptyCellInColumn()`: `null` (inner `none`) when the column is full
(`board[0][col]` occupied), otherwise the scan from the top.  The outer
`Option` models a TypeError on an out-of-range access. -/
def findEmptyCellInColumn (b : BoardData) (height : Nat) (col : Int) :
    Option (Option Int) :=
  match boardCell? b 0 col with
  | none => none
  | some cell0 =>
    if cell0.playerId.isSome then some none
    else findEmptyLoop b height col 0 height

/-- `initGame.board[y][x].playerId = playerId`: `none` models the TypeError
of writing through an `undefined` row or cell. -/
def setCell? (b : BoardData) (y x : Int) (pid : String) : Option BoardData :=
  match jsIdx? b y with
  | none => none
  | some row =>
    match jsIdx? row x with
    | none => none
    | some cell =>
      some (b.set y.toNat (row.set x.toNat { cell with playerId := some pid }))

/-- The tail of the `dropPiece` transaction after `_addToBoard` and
`_addTurnRecord` have committed (`db2` is the store holding the new board,
placed-piece list and turn row): re-select the game, run `checkForGameEnd`,
then `_updateGameState` and, when the game continues, `startTurn`.  The two
UPDATE statements of `_updateGameState` are rejected by the database engine:
the win branch reads `SET winning_set = $2 gameState = 2` (missing comma —
a syntax error) and the tie branch `SET gameState = 3` names a column that
does not exist (the schema column is `game_state`), so both throw
`sqlError` without writing anything. -/
def dropPieceCommit (rand : Nat → Nat) (db2 : GamesDB)
    (gameId playerId : String) : Option GameError × GamesDB :=
  match findGame db2 gameId with
  | none => (some GameError.typeError, db2)
  | some g2 =>
    match g2.board, g2.placedPieces with
    | some b2, some pp2 =>
      match checkForGameEnd b2 pp2 with
      | none => (some GameError.typeError, db2)
      | some endGameState =>
        if endGameState.state = 2 then
          if endGameState.winningPlayerId ≠ some playerId then
            (some GameError.runtimeError, db2)
          else (some GameError.sqlError, db2)
        else if endGameState.state = 3 then
          (some GameError.sqlError, db2)
        else if endGameState.state = 1 then startTurn rand db2 gameId
        else (none, db2)
    | _, _ => (some GameError.typeError, db2)

/-- `Game.dropPiece(gameId, playerId, col)` — the whole piece-drop
transaction, step by step as the source executes it:

1. load the game; on a missing row the source dereferences
   `gameResult.board` on `undefined` (TypeError) before any check
   (`_validateGameState` compares the row against `null`, never against
   `undefined`, so its NotFoundError is unreachable);
2. `_validateGameState`: uninitialized board or `gameState !== 1` →
   InvalidGameState, wrong caller → NotCurrentPlayer;
3. column bounds, then `_findEmptyCellInColumn` (`null` → full column) →
   InvalidPiecePlacement;
4. `_addToBoard`: write the cell and append to `placed_pieces` (one valid
   UPDATE, committed);
5. `_addTurnRecord`: INSERT into `game_turns` (committed);
6. re-select and run `checkForGameEnd`;
7. `_updateGameState`: on a win by another player throw; on a win the UPDATE
   `SET winning_set = $2 gameState = 2` is malformed SQL (missing comma) and
   on a tie `SET gameState = 3` names a column that does not exist
   (`game_state` in the schema), so both branches throw `sqlError` and the
   lifecycle columns are never written;
8. if still continuing, `startTurn` advances the current player. -/
def dropPiece (rand : Nat → Nat) (db : GamesDB) (gameId playerId : String)
    (col : Int) : Option GameError × GamesDB :=
  match findGame db gameId with
  | none => (some GameError.typeError, db)
  | some g =>
    if g.board = none then (some GameError.invalidGameState, db)
    else if g.gameState ≠ 1 then (some GameError.invalidGameState, db)
    else if g.currPlayerId ≠ some playerId then (some GameError.notCurrentPlayer, db)
    else if col < 0 ∨ col > (g.width : Int) - 1 then
      (some GameError.invalidPiecePlacement, db)
    else
      match g.board with
      | none => (some GameError.typeError, db)
      | some b =>
        match findEmptyCellInColumn b g.height col with
        | none => (some GameError.typeError, db)
        | some none => (some GameError.invalidPiecePlacement, db)
        | some (some targetRow) =>
          match setCell? b targetRow col playerId with
          | none => (some GameError.typeError, db)
          | some b1 =>
            let pp1 :=
              match g.placedPieces with
              | none => [(targetRow, col)]
              | some pp => pp ++ [(targetRow, col)]
            let db1 := updateGameRow db gameId
              (fun gg => { gg with board := some b1, placedPieces := some pp1 })
            let db2 :=
              { db1 with
                turns := db1.turns ++
                  [{ gameId := gameId, playerId := playerId,
                     location := (targetRow, col) }] }
            dropPieceCommit rand db2 gameId playerId

/-- `Game.removePlayer(playerId, gameId)`: DELETE the pairing; a miss throws
NotFoundError.  On success the function body ends without a `return`
statement, so the JavaScript value produced is `undefined`, modelled as
`Except.ok none` in the `Option Nat` of a possible count. -/
def removePlayer (db : GamesDB) (playerId gameId : String) :
    Except GameError (Option Nat) × GamesDB :=
  let deleted := db.gamePlayers.filter
    (fun r => r.playerId == playerId && r.gameId == gameId)
  match deleted with
  | [] => (Except.error GameError.notFound, db)
  | _ :: _ =>
    (Except.ok none,
      { db with
        gamePlayers := db.gamePlayers.filter
          (fun r => !(r.playerId == playerId && r.gameId == gameId)) })

/-- A freshly initialized 6×7 board with a chosen occupant map placed on it
(used to build concrete scenarios). -/
def boardWith (occ : Nat → Nat → Option String) : BoardData :=
  (List.range 6).map (fun y =>
    (List.range 7).map (fun x =>
      { playerId := occ y x, validCoordSets := populateValidCoordSets 6 7 y x }))

/-- Occupancy one move before the horizontal win of the bottom row: player
`A` on row 5, columns 0–2, player `B` on row 4, columns 0–2. -/
def occNearWin (y x : Nat) : Option String :=
  if y = 5 ∧ x ≤ 2 then some "A"
  else if y = 4 ∧ x ≤ 2 then some "B"
  else none

/-- The started 6×7 game one move from a win, with `A` to move. -/
def dbNearWin : GamesDB :=
  { games := [{ id := "g1", height := 6, width := 7, gameState := 1,
                placedPieces := some [(5,0),(4,0),(5,1),(4,1),(5,2),(4,2)],
                board := some (boardWith occNearWin),
                winningSet := none, currPlayerId := some "A" }],
    players := [{ id := "A", ai := false }, { id := "B", ai := false }],
    gamePlayers := [{ playerId := "A", gameId := "g1", playOrder := some 0 },
                    { playerId := "B", gameId := "g1", playOrder := some 1 }],
    turns := [] }

example :
    (dropPiece (fun _ => 0) dbNearWin "g1" "A" 3).1 = some GameError.sqlError := by
  decide

example :
    (findGame (dropPiece (fun _ => 0) dbNearWin "g1" "A" 3).2 "g1").map
      (fun g => (g.gameState, g.winningSet)) = some (1, none) := by
  decide

example :
    checkForGameEnd
      (boardWith (fun y x => if y = 5 ∧ x ≤ 3 then some "A"
                             else if y = 4 ∧ x ≤ 2 then some "B" else none))
      [(5,0),(4,0),(5,1),(4,1),(5,2),(4,2),(5,3)] =
    some { state := 2, winningSet := some [(5,0),(5,1),(5,2),(5,3)],
           winningPlayerId := some "A" } := by
  decide

/-- The `games` row of `dbEmptyStart`. -/
def gEmptyStart : GameRecord :=
  { id := "g1", height := 6, width := 7, gameState := 1,
    placedPieces := none, board := some (createInitializedBoard 6 7),
    winningSet := none, currPlayerId := some "A" }

/-- The started empty 6×7 game with `A` to move. -/
def dbEmptyStart : GamesDB :=
  { games := [gEmptyStart],
    players := [{ id := "A", ai := false }, { id := "B", ai := false }],
    gamePlayers := [{ playerId := "A", gameId := "g1", playOrder := some 0 },
                    { playerId := "B", gameId := "g1", playOrder := some 1 }],
    turns := [] }

example :
    (dropPiece (fun _ => 0) dbEmptyStart "g1" "A" 0).1 = none := by
  decide

example :
    (findGame (dropPiece (fun _ => 0) dbEmptyStart "g1" "A" 0).2 "g1").map
      (fun g => (g.currPlayerId, g.placedPieces,
                 g.board.map (fun b => occupantAt b 5 0))) =
      some (some "B", some [(5, 0)], some (some "A")) := by
  decide

/-- C1: `checkForGameEnd` does NOT use a fixed anchor coordinate as the
reference occupant: it indexes the candidate line with the outer line index
`j` (`validCoordSets[j]`), which reads past the end of the 4-coordinate line
as soon as a cell has five candidate lines (`j = 4`) and crashes with a
TypeError.  On a 6×7 board holding a single piece at `(5, 3)` — the state
reached by the very first drop into column 3 of a fresh game — no winning
line exists (`specAnchorWin` is false), yet `checkForGameEnd` crashes
(`none`) instead of reporting the game as continuing, and the enclosing
`dropPiece` call fails with the TypeError after having placed the piece. -/
theorem checkForGameEnd_line_index_reference_crashes :
    checkForGameEnd (boardSingle53 "A") [(5, 3)] = none ∧
    specAnchorWin (boardSingle53 "A") [(5, 3)] = false ∧
    (dropPiece (fun _ => 0) dbEmptyStart "g1" "A" 3).1 = some GameError.typeError ∧
    (findGame (dropPiece (fun _ => 0) dbEmptyStart "g1" "A" 3).2 "g1").map
        (fun g => g.board.map (fun b => occupantAt b 5 3)) =
      some (some (some "A")) := by
  decide

/-- C3: a drop that completes four-in-a-row does NOT set the lifecycle to
Won.  With `A` on row 5 columns 0–2 and `B` on row 4 columns 0–2, `A`
dropping in column 3 produces the winning line, and `checkForGameEnd` does
detect it (state 2 with exactly the four coordinates), but the
`_updateGameState` UPDATE `SET winning_set = $2 gameState = 2` is malformed
SQL (missing comma; also the games table has no `gameState` column), so the
query throws: `dropPiece` fails with `sqlError`, `game_state` stays 1
(Started) and `winning_set` stays NULL. -/
theorem dropPiece_win_leaves_lifecycle_started :
    checkForGameEnd
        (boardWith (fun y x => if y = 5 ∧ x ≤ 3 then some "A"
                               else if y = 4 ∧ x ≤ 2 then some "B" else none))
        [(5,0),(4,0),(5,1),(4,1),(5,2),(4,2),(5,3)] =
      some { state := 2, winningSet := some [(5,0),(5,1),(5,2),(5,3)],
             winningPlayerId := some "A" } ∧
    (dropPiece (fun _ => 0) dbNearWin "g1" "A" 3).1 = some GameError.sqlError ∧
    (findGame (dropPiece (fun _ => 0) dbNearWin "g1" "A" 3).2 "g1").map
        (fun g => (g.gameState, g.winningSet,
                   g.board.map (fun b => occupantAt b 5 3))) =
      some (1, none, some (some "A")) := by
  decide

instance {ε α : Type} [DecidableEq ε] [DecidableEq α] :
    DecidableEq (Except ε α) := fun
  | .ok a, .ok b =>
    if h : a = b then isTrue (by rw [h]) else isFalse (by simp [h])
  | .ok _, .error _ => isFalse (by simp)
  | .error _, .ok _ => isFalse (by simp)
  | .error a, .error b =>
    if h : a = b then isTrue (by rw [h]) else isFalse (by simp [h])

/-- A store holding a single roster pairing `("p1", "g1")`. -/
def dbRoster : GamesDB :=
  { games := [], players := [{ id := "p1", ai := false }],
    gamePlayers := [{ playerId := "p1", gameId := "g1", playOrder := none }],
    turns := [] }

/-- C7: `removePlayer` does fail NotFound on a missing pairing, but on
success it returns `undefined` (modelled `Except.ok none`), NOT the updated
roster size: removing the only member of the roster leaves a count of 0 but
the call returns no count at all (the repository's own test
`game.test.ts` expects `0` here). -/
theorem removePlayer_returns_undefined_not_count :
    removePlayer dbRoster "p1" "g1" =
      (Except.ok none, { dbRoster with gamePlayers := [] }) ∧
    ((removePlayer dbRoster "p1" "g1").2.gamePlayers.filter
        (fun r => r.gameId == "g1")).length = 0 ∧
    (removePlayer dbRoster "p1" "g1").1 ≠ Except.ok (some 0) ∧
    removePlayer dbRoster "zz" "g1" = (Except.error GameError.notFound, dbRoster) := by
  decide

/-- A game with a two-player roster and no current player (the state
`startTurn` sees when a game is started). -/
def dbTwoNew : GamesDB :=
  { games := [{ id := "g1", height := 6, width := 7, gameState := 1,
                placedPieces := none,
                board := some (createInitializedBoard 6 7),
                winningSet := none, currPlayerId := none }],
    players := [{ id := "p1", ai := false }, { id := "p2", ai := false }],
    gamePlayers := [{ playerId := "p1", gameId := "g1", playOrder := none },
                    { playerId := "p2", gameId := "g1", playOrder := none }],
    turns := [] }

/-- C6: the play-order shuffle is NOT a uniform Fisher–Yates shuffle.  The
source draws `j = Math.floor(Math.random() * i)` (instead of `* (i + 1)`),
so `j < i` on every iteration and position `i` always trades away its
element.  Consequently for every two-player roster the shuffle produces the
swapped order on EVERY possible sequence of random draws: the identity
permutation has probability 0, not 1/2, so the n! permutations are not
equally likely.  `startTurn` on a fresh two-player game therefore
deterministically gives `p2` play order 0 and makes `p2` the current
player. -/
theorem fisherYates_two_players_always_swap
    (rand : Nat → Nat) (hrand : ∀ i, 1 ≤ i → rand i < i) (a b : String) :
    fisherYatesCode rand [a, b] = [b, a] ∧
    ((startTurn rand dbTwoNew "g1").2.gamePlayers.map (fun r => r.playOrder) =
        [some 1, some 0] ∧
      (findGame (startTurn rand dbTwoNew "g1").2 "g1").bind
          (fun g => g.currPlayerId) = some "p2") := by
  have h1 : rand 1 = 0 := Nat.lt_one_iff.mp (hrand 1 le_rfl)
  have hswap : ∀ x y : String, fisherYatesCode rand [x, y] = [y, x] := by
    intro x y
    simp [fisherYatesCode, fyRun, swapList, h1]
  refine ⟨hswap a b, ?_, ?_⟩
  · simp [startTurn, findGame, dbTwoNew, hswap, firstIdx?, updateGameRow,
      gamePlayersWithAi]
  · simp [startTurn, findGame, dbTwoNew, hswap, firstIdx?, updateGameRow,
      gamePlayersWithAi]

/-- Witness for C6 at the concrete all-zero draw sequence. -/
theorem fisherYates_two_players_always_swap_witness :
    fisherYatesCode (fun _ => 0) ["p1", "p2"] = ["p2", "p1"] :=
  (fisherYates_two_players_always_swap (fun _ => 0) (fun _ hi => hi) "p1" "p2").1

/-- When `board[0][col]` is occupied, `_findEmptyCellInColumn` reports the
column as full (`null`). -/
lemma findEmptyCellInColumn_full {b : BoardData} {hgt : Nat} {col : Int}
    (h : (occupantAt b 0 col).isSome) :
    findEmptyCellInColumn b hgt col = some none := by
  unfold occupantAt at h
  unfold findEmptyCellInColumn
  cases hc : boardCell? b 0 col with
  | none => rw [hc] at h; simp at h
  | some cell => rw [hc] at h; simp [h]

/-- Occupancy filling column 0 completely (alternating players, no win). -/
def occFullCol (y x : Nat) : Option String :=
  if x = 0 then (if y % 2 = 0 then some "A" else some "B") else none

/-- The `games` row of `dbWonFull`: lifecycle Won with column 0 full. -/
def gWonFull : GameRecord :=
  { id := "g1", height := 6, width := 7, gameState := 2,
    placedPieces := some [], board := some (boardWith occFullCol),
    winningSet := none, currPlayerId := some "A" }

/-- The `games` row of `dbStartedFull`: Started with column 0 full. -/
def gStartedFull : GameRecord :=
  { id := "g1", height := 6, width := 7, gameState := 1,
    placedPieces := some [], board := some (boardWith occFullCol),
    winningSet := none, currPlayerId := some "A" }

/-- A game whose lifecycle is Won (`game_state = 2`) with column 0 full. -/
def dbWonFull : GamesDB :=
  { games := [gWonFull],
    players := [{ id := "A", ai := false }, { id := "B", ai := false }],
    gamePlayers := [{ playerId := "A", gameId := "g1", playOrder := some 0 },
                    { playerId := "B", gameId := "g1", playOrder := some 1 }],
    turns := [] }

/-- The same full-column position but with the game Started. -/
def dbStartedFull : GamesDB :=
  { games := [gStartedFull],
    players := [{ id := "A", ai := false }, { id := "B", ai := false }],
    gamePlayers := [{ playerId := "A", gameId := "g1", playOrder := some 0 },
                    { playerId := "B", gameId := "g1", playOrder := some 1 }],
    turns := [] }

/-- C4: a `dropPiece` call that fails validation leaves the store untouched:
the second component of the result is the input `db` itself, so board
occupancy, placed pieces, turn log, lifecycle and current player are all
unchanged.  The five conjuncts cover, in the order the source checks them:
game not found (the source crashes with a TypeError on `gameResult.board` —
the `gameResult === null` guard never fires for an `undefined` row — before
touching anything), uninitialized board or lifecycle not Started, wrong
caller, column out of bounds, and column full. -/
theorem dropPiece_validation_failure_leaves_state_unchanged
    (rand : Nat → Nat) (db : GamesDB) (gid pid : String) (col : Int) :
    (findGame db gid = none →
      dropPiece rand db gid pid col = (some GameError.typeError, db)) ∧
    (∀ g, findGame db gid = some g → (g.board = none ∨ g.gameState ≠ 1) →
      dropPiece rand db gid pid col = (some GameError.invalidGameState, db)) ∧
    (∀ g, findGame db gid = some g → g.board ≠ none → g.gameState = 1 →
      g.currPlayerId ≠ some pid →
      dropPiece rand db gid pid col = (some GameError.notCurrentPlayer, db)) ∧
    (∀ g, findGame db gid = some g → g.board ≠ none → g.gameState = 1 →
      g.currPlayerId = some pid → (col < 0 ∨ col > (g.width : Int) - 1) →
      dropPiece rand db gid pid col = (some GameError.invalidPiecePlacement, db)) ∧
    (∀ g b, findGame db gid = some g → g.board = some b → g.gameState = 1 →
      g.currPlayerId = some pid → ¬(col < 0 ∨ col > (g.width : Int) - 1) →
      (occupantAt b 0 col).isSome →
      dropPiece rand db gid pid col = (some GameError.invalidPiecePlacement, db)) := by
  refine ⟨?_, ?_, ?_, ?_, ?_⟩
  · intro h
    simp [dropPiece, h]
  · intro g hg hbs
    rcases hbs with hb | hs
    · simp [dropPiece, hg, hb]
    · by_cases hb : g.board = none
      · simp [dropPiece, hg, hb]
      · simp [dropPiece, hg, hb, hs]
  · intro g hg hb hs hc
    simp [dropPiece, hg, hb, hs, hc]
  · intro g hg hb hs hc hcol
    simp [dropPiece, hg, hb, hs, hc, hcol]
  · intro g b hg hb hs hc hcol hfull
    simp [dropPiece, hg, hb, hs, hc, hcol, findEmptyCellInColumn_full hfull]

/-- Witness for C4: a missing game and a full column on a started game both
fail without changing the store. -/
theorem dropPiece_validation_failure_leaves_state_unchanged_witness :
    dropPiece (fun _ => 0) dbEmptyStart "missing" "A" 0 =
      (some GameError.typeError, dbEmptyStart) ∧
    dropPiece (fun _ => 0) dbStartedFull "g1" "A" 0 =
      (some GameError.invalidPiecePlacement, dbStartedFull) :=
  ⟨(dropPiece_validation_failure_leaves_state_unchanged
      (fun _ => 0) dbEmptyStart "missing" "A" 0).1 (by decide),
   (dropPiece_validation_failure_leaves_state_unchanged
      (fun _ => 0) dbStartedFull "g1" "A" 0).2.2.2.2
      gStartedFull (boardWith occFullCol) (by decide) (by decide) (by decide)
      (by decide) (by decide) (by decide)⟩

/-- C5 counterexample: a game whose lifecycle is Won (`game_state = 2`) with
column 0 entirely occupied; `dropPiece` into that full column fails with
`invalidGameState`, not `invalidPiecePlacement` — the full-column failure is
NOT produced regardless of lifecycle state. -/
theorem dropPiece_full_column_won_game_counterexample :
    (∀ y ∈ List.range 6,
      (occupantAt (boardWith occFullCol) (y : Int) 0).isSome) ∧
    (dropPiece (fun _ => 0) dbWonFull "g1" "A" 0).1 =
      some GameError.invalidGameState ∧
    GameError.invalidGameState ≠ GameError.invalidPiecePlacement := by
  decide

/-- C5 amended: dropping into a full column (row 0 occupied, as when every
cell of the column is occupied) fails with `invalidPiecePlacement` only when
the game is Started and the caller is the current player; when the lifecycle
is not Started (NotStarted, Won or Tied) the same call fails earlier with
`invalidGameState` instead. -/
theorem dropPiece_full_column_depends_on_lifecycle
    (rand : Nat → Nat) (db : GamesDB) (gid pid : String) (col : Int)
    (g : GameRecord) (b : BoardData) (hg : findGame db gid = some g)
    (hb : g.board = some b) (hfull : (occupantAt b 0 col).isSome) :
    (g.gameState = 1 → g.currPlayerId = some pid → 0 ≤ col →
      col ≤ (g.width : Int) - 1 →
      dropPiece rand db gid pid col = (some GameError.invalidPiecePlacement, db)) ∧
    (g.gameState ≠ 1 →
      dropPiece rand db gid pid col = (some GameError.invalidGameState, db)) := by
  constructor
  · intro hs hc h0 h1
    have hcol : ¬(col < 0 ∨ col > (g.width : Int) - 1) := by omega
    simp [dropPiece, hg, hb, hs, hc, hcol, findEmptyCellInColumn_full hfull]
  · intro hs
    simp [dropPiece, hg, hb, hs]

/-- Witness for the amended C5 at the started full-column game. -/
theorem dropPiece_full_column_depends_on_lifecycle_witness :
    dropPiece (fun _ => 0) dbStartedFull "g1" "A" 0 =
      (some GameError.invalidPiecePlacement, dbStartedFull) ∧
    (dropPiece (fun _ => 0) dbWonFull "g1" "A" 0).1 ≠
      some GameError.invalidPiecePlacement :=
  ⟨(dropPiece_full_column_depends_on_lifecycle (fun _ => 0) dbStartedFull
      "g1" "A" 0 gStartedFull (boardWith occFullCol)
      (by decide) (by decide) (by decide)).1
      (by decide) (by decide) (by decide) (by decide),
   by
    have h := (dropPiece_full_column_depends_on_lifecycle (fun _ => 0) dbWonFull
      "g1" "A" 0 gWonFull (boardWith occFullCol)
      (by decide) (by decide) (by decide)).2 (by decide)
    rw [h]
    decide⟩

lemma mem_ite_nil {α : Type} {c : Prop} [Decidable c] {a : α} {L : List α} :
    (a ∈ if c then L else []) ↔ c ∧ a ∈ L := by
  by_cases hc : c <;> simp [hc]

lemma rowDef_iff {h : Nat} {i : Int} :
    rowDef h i = true ↔ 0 ≤ i ∧ i < (h : Int) := by
  simp [rowDef]

lemma cellDef_iff {h w : Nat} {i j : Int} :
    cellDef h w i j = true ↔ (0 ≤ i ∧ i < (h : Int)) ∧ 0 ≤ j ∧ j < (w : Int) := by
  simp [cellDef, rowDef, and_assoc]

/-- Structural membership in the candidate-line list: a line is present iff
it is one of the five direction lines and its guard holds. -/
lemma mem_populateValidCoordSets {h w : Nat} {y x : Int}
    {line : List (Int × Int)} :
    line ∈ populateValidCoordSets h w y x ↔
      (rowDef h (y - 3) = true ∧
        ((cellDef h w (y - 3) x = true ∧ line = upLine y x) ∨
         (cellDef h w (y - 3) (x - 3) = true ∧ line = upLeftLine y x) ∨
         (cellDef h w (y - 3) (x + 3) = true ∧ line = upRightLine y x))) ∨
      (cellDef h w y (x - 3) = true ∧ line = leftLine y x) ∨
      (cellDef h w y (x + 3) = true ∧ line = rightLine y x) := by
  simp only [populateValidCoordSets, List.mem_append, mem_ite_nil,
    List.mem_singleton, List.not_mem_nil]
  tauto

/-- For an in-bounds anchor, a direction line is retained exactly when its
far endpoint fits, which the guards test; the inequalities are phrased on
the anchor. -/
lemma mem_populateValidCoordSets_arith {h w : Nat} {y x : Int}
    (hy0 : 0 ≤ y) (hyh : y < (h : Int)) (hx0 : 0 ≤ x) (hxw : x < (w : Int))
    {line : List (Int × Int)} :
    line ∈ populateValidCoordSets h w y x ↔
      ((line = upLine y x ∧ 3 ≤ y) ∨
       (line = upLeftLine y x ∧ 3 ≤ y ∧ 3 ≤ x) ∨
       (line = upRightLine y x ∧ 3 ≤ y ∧ x + 3 < (w : Int)) ∨
       (line = leftLine y x ∧ 3 ≤ x) ∨
       (line = rightLine y x ∧ x + 3 < (w : Int))) := by
  rw [mem_populateValidCoordSets]
  constructor
  · rintro (⟨hr, (⟨hc, rfl⟩ | ⟨hc, rfl⟩ | ⟨hc, rfl⟩)⟩ | ⟨hc, rfl⟩ | ⟨hc, rfl⟩) <;>
      rw [cellDef_iff] at hc
    · exact Or.inl ⟨rfl, by omega⟩
    · exact Or.inr (Or.inl ⟨rfl, by omega⟩)
    · exact Or.inr (Or.inr (Or.inl ⟨rfl, by omega⟩))
    · exact Or.inr (Or.inr (Or.inr (Or.inl ⟨rfl, by omega⟩)))
    · exact Or.inr (Or.inr (Or.inr (Or.inr ⟨rfl, by omega⟩)))
  · rintro (⟨rfl, hb⟩ | ⟨rfl, hb⟩ | ⟨rfl, hb⟩ | ⟨rfl, hb⟩ | ⟨rfl, hb⟩)
    · exact Or.inl ⟨rowDef_iff.mpr (by omega), Or.inl ⟨cellDef_iff.mpr (by omega), rfl⟩⟩
    · exact Or.inl ⟨rowDef_iff.mpr (by omega),
        Or.inr (Or.inl ⟨cellDef_iff.mpr (by omega), rfl⟩)⟩
    · exact Or.inl ⟨rowDef_iff.mpr (by omega),
        Or.inr (Or.inr ⟨cellDef_iff.mpr (by omega), rfl⟩)⟩
    · exact Or.inr (Or.inl ⟨cellDef_iff.mpr (by omega), rfl⟩)
    · exact Or.inr (Or.inr ⟨cellDef_iff.mpr (by omega), rfl⟩)

/-- Every coordinate of every retained line is in bounds, although the
source only tests the far endpoint: the two intermediate coordinates sit
between the anchor and the far endpoint. -/
lemma mem_populateValidCoordSets_inBounds {h w : Nat} {y x : Int}
    (hy0 : 0 ≤ y) (hyh : y < (h : Int)) (hx0 : 0 ≤ x) (hxw : x < (w : Int))
    {line : List (Int × Int)} (hline : line ∈ populateValidCoordSets h w y x) :
    ∀ c ∈ line, 0 ≤ c.1 ∧ c.1 < (h : Int) ∧ 0 ≤ c.2 ∧ c.2 < (w : Int) := by
  rw [mem_populateValidCoordSets_arith hy0 hyh hx0 hxw] at hline
  rcases hline with ⟨rfl, hb⟩ | ⟨rfl, hb⟩ | ⟨rfl, hb⟩ | ⟨rfl, hb⟩ | ⟨rfl, hb⟩ <;>
    · intro c hc
      simp only [upLine, upLeftLine, upRightLine, leftLine, rightLine,
        List.mem_cons, List.not_mem_nil, or_false] at hc
      rcases hc with rfl | rfl | rfl | rfl <;>
        refine ⟨?_, ?_, ?_, ?_⟩ <;> simp <;> omega

/-- C8: for all dimensions `h, w ≥ 4` and every in-bounds cell `(y, x)`, the
precomputed table holds only 4-coordinate lines anchored at `(y, x)` in the
five directions up, up-left, up-right, left, right; a direction line is
retained exactly when all 4 of its coordinates are in bounds; and the
bottom-left corner `(h-1, 0)` has no "left" line but does have an
"up-right" line. -/
theorem lineTable_five_directions_exactly_inBounds (h w : Nat)
    (hh : 4 ≤ h) (hw : 4 ≤ w) (y x : Int)
    (hy0 : 0 ≤ y) (hyh : y < (h : Int)) (hx0 : 0 ≤ x) (hxw : x < (w : Int)) :
    (∀ line ∈ populateValidCoordSets h w y x,
      line.length = 4 ∧ line.head? = some (y, x) ∧
      (line = upLine y x ∨ line = upLeftLine y x ∨ line = upRightLine y x ∨
        line = leftLine y x ∨ line = rightLine y x) ∧
      ∀ c ∈ line, 0 ≤ c.1 ∧ c.1 < (h : Int) ∧ 0 ≤ c.2 ∧ c.2 < (w : Int)) ∧
    (∀ line,
      (line = upLine y x ∨ line = upLeftLine y x ∨ line = upRightLine y x ∨
        line = leftLine y x ∨ line = rightLine y x) →
      (∀ c ∈ line, 0 ≤ c.1 ∧ c.1 < (h : Int) ∧ 0 ≤ c.2 ∧ c.2 < (w : Int)) →
      line ∈ populateValidCoordSets h w y x) ∧
    leftLine ((h : Int) - 1) 0 ∉ populateValidCoordSets h w ((h : Int) - 1) 0 ∧
    upRightLine ((h : Int) - 1) 0 ∈ populateValidCoordSets h w ((h : Int) - 1) 0 := by
  refine ⟨?_, ?_, ?_, ?_⟩
  · intro line hline
    have hin := mem_populateValidCoordSets_inBounds hy0 hyh hx0 hxw hline
    rw [mem_populateValidCoordSets_arith hy0 hyh hx0 hxw] at hline
    refine ⟨?_, ?_, ?_, hin⟩
    · rcases hline with ⟨rfl, _⟩ | ⟨rfl, _⟩ | ⟨rfl, _⟩ | ⟨rfl, _⟩ | ⟨rfl, _⟩ <;>
        rfl
    · rcases hline with ⟨rfl, _⟩ | ⟨rfl, _⟩ | ⟨rfl, _⟩ | ⟨rfl, _⟩ | ⟨rfl, _⟩ <;>
        rfl
    · rcases hline with ⟨rfl, _⟩ | ⟨rfl, _⟩ | ⟨rfl, _⟩ | ⟨rfl, _⟩ | ⟨rfl, _⟩ <;>
        tauto
  · intro line hdir hin
    rw [mem_populateValidCoordSets_arith hy0 hyh hx0 hxw]
    rcases hdir with rfl | rfl | rfl | rfl | rfl
    · have h3 := hin (y - 3, x) (by simp [upLine])
      exact Or.inl ⟨rfl, by omega⟩
    · have h3 := hin (y - 3, x - 3) (by simp [upLeftLine])
      exact Or.inr (Or.inl ⟨rfl, by omega⟩)
    · have h3 := hin (y - 3, x + 3) (by simp [upRightLine])
      exact Or.inr (Or.inr (Or.inl ⟨rfl, by omega⟩))
    · have h3 := hin (y, x - 3) (by simp [leftLine])
      exact Or.inr (Or.inr (Or.inr (Or.inl ⟨rfl, by omega⟩)))
    · have h3 := hin (y, x + 3) (by simp [rightLine])
      exact Or.inr (Or.inr (Or.inr (Or.inr ⟨rfl, by omega⟩)))
  · intro hmem
    rw [mem_populateValidCoordSets_arith (by omega) (by omega) (by omega)
      (by omega)] at hmem
    rcases hmem with ⟨heq, _⟩ | ⟨heq, _⟩ | ⟨heq, _⟩ | ⟨_, hb⟩ | ⟨heq, _⟩ <;>
      first
        | omega
        | (simp only [leftLine, upLine, upLeftLine, upRightLine, rightLine,
            List.cons.injEq, Prod.mk.injEq] at heq
           omega)
  · rw [mem_populateValidCoordSets_arith (by omega) (by omega) (by omega)
      (by omega)]
    exact Or.inr (Or.inr (Or.inl ⟨rfl, by omega⟩))

/-- Witness for C8 on a 6×7 board: the bottom-left corner `(5, 0)`. -/
theorem lineTable_five_directions_exactly_inBounds_witness :
    leftLine 5 0 ∉ populateValidCoordSets 6 7 5 0 ∧
    upRightLine 5 0 ∈ populateValidCoordSets 6 7 5 0 := by
  have h := lineTable_five_directions_exactly_inBounds 6 7 (by norm_num)
    (by norm_num) 5 0 (by norm_num) (by norm_num) (by norm_num) (by norm_num)
  have h1 := h.2.2.1
  have h2 := h.2.2.2
  norm_num at h1 h2
  exact ⟨h1, h2⟩

/-- Looking up a cell of a freshly initialized board: in bounds gives the
empty cell with its line table, out of bounds gives `undefined`. -/
lemma boardCell?_createInitializedBoard (h w : Nat) (y x : Int) :
    boardCell? (createInitializedBoard h w) y x =
      if 0 ≤ y ∧ y < (h : Int) ∧ 0 ≤ x ∧ x < (w : Int) then
        some { playerId := none, validCoordSets := populateValidCoordSets h w y x }
      else none := by
  simp only [boardCell?, createInitializedBoard, jsIdx?]
  by_cases hy : y < 0
  · rw [if_pos hy, if_neg (by omega)]
  · rw [if_neg hy]
    by_cases hyh : y.toNat < h
    · rw [List.get?_map, List.get?_range hyh]
      by_cases hx : x < 0
      · simp only [Option.map_some']
        rw [if_pos hx, if_neg (by omega)]
      · simp only [Option.map_some']
        rw [if_neg hx]
        by_cases hxw : x.toNat < w
        · rw [List.get?_map, List.get?_range hxw, if_pos (by omega)]
          simp only [Option.map_some']
          have hy2 : ((y.toNat : Nat) : Int) = y := by omega
          have hx2 : ((x.toNat : Nat) : Int) = x := by omega
          rw [hy2, hx2]
        · rw [List.get?_map,
            List.get?_eq_none.mpr (by simpa using by omega : (List.range w).length ≤ x.toNat),
            if_neg (by omega)]
          rfl
    · rw [List.get?_map,
        List.get?_eq_none.mpr (by simpa using by omega : (List.range h).length ≤ y.toNat),
        if_neg (by omega)]
      rfl

/-- C9: in a freshly initialized board of any dimensions, every coordinate
of every stored candidate line is in bounds, so indexing the board at any
coordinate of any stored line never yields `undefined`. -/
theorem storedLines_inBounds (h w : Nat) (y x : Int) (cell : BoardCell)
    (hcell : boardCell? (createInitializedBoard h w) y x = some cell) :
    ∀ line ∈ cell.validCoordSets, ∀ c ∈ line,
      (0 ≤ c.1 ∧ c.1 < (h : Int) ∧ 0 ≤ c.2 ∧ c.2 < (w : Int)) ∧
      (boardCell? (createInitializedBoard h w) c.1 c.2).isSome := by
  rw [boardCell?_createInitializedBoard] at hcell
  by_cases hb : 0 ≤ y ∧ y < (h : Int) ∧ 0 ≤ x ∧ x < (w : Int)
  · rw [if_pos hb] at hcell
    obtain ⟨rfl⟩ := Option.some.injEq .. ▸ Option.some_inj.mp hcell
    intro line hline c hc
    have hin := mem_populateValidCoordSets_inBounds hb.1 hb.2.1 hb.2.2.1
      hb.2.2.2 hline c hc
    refine ⟨hin, ?_⟩
    rw [boardCell?_createInitializedBoard, if_pos hin]
    rfl
  · rw [if_neg hb] at hcell
    exact absurd hcell (by simp)

/-- Witness for C9: the far coordinate `(2, 0)` of the "up" line stored at
cell `(5, 0)` of a 6×7 board is in bounds and the board lookup there
succeeds. -/
theorem storedLines_inBounds_witness :
    ((0 : Int) ≤ 2 ∧ (2 : Int) < ((6 : Nat) : Int) ∧ (0 : Int) ≤ 0 ∧
      (0 : Int) < ((7 : Nat) : Int)) ∧
    (boardCell? (createInitializedBoard 6 7) 2 0).isSome :=
  storedLines_inBounds 6 7 5 0
    { playerId := none, validCoordSets := populateValidCoordSets 6 7 5 0 }
    (by decide) (upLine 5 0) (by decide) (2, 0) (by decide)

/-- A board matrix with `h` rows of `w` cells each (the shape every board
built by `createInitializedBoard` has). -/
def wfBoard (b : BoardData) (h w : Nat) : Prop :=
  b.length = h ∧ ∀ row ∈ b, row.length = w

/-- In a well-formed board every in-bounds lookup succeeds. -/
lemma exists_boardCell?_of_wf {b : BoardData} {h w : Nat} (hwf : wfBoard b h w)
    {y x : Int} (hy0 : 0 ≤ y) (hyh : y < (h : Int)) (hx0 : 0 ≤ x)
    (hxw : x < (w : Int)) :
    ∃ cell, boardCell? b y x = some cell := by
  obtain ⟨hlen, hrows⟩ := hwf
  have hyn : y.toNat < b.length := by omega
  obtain ⟨row, hrow⟩ : ∃ row, b.get? y.toNat = some row :=
    ⟨b.get ⟨y.toNat, hyn⟩, List.get?_eq_get hyn⟩
  have hrl : row.length = w := hrows row (List.get?_mem hrow)
  have hxn : x.toNat < row.length := by omega
  obtain ⟨cell, hcell⟩ : ∃ cell, row.get? x.toNat = some cell :=
    ⟨row.get ⟨x.toNat, hxn⟩, List.get?_eq_get hxn⟩
  refine ⟨cell, ?_⟩
  unfold boardCell? jsIdx?
  simp only [if_neg (show ¬y < 0 by omega), hrow,
    if_neg (show ¬x < 0 by omega), hcell]

/-- In a well-formed board every in-bounds write succeeds. -/
lemma setCell?_isSome_of_wf {b : BoardData} {h w : Nat} (hwf : wfBoard b h w)
    {y x : Int} (hy0 : 0 ≤ y) (hyh : y < (h : Int)) (hx0 : 0 ≤ x)
    (hxw : x < (w : Int)) (pid : String) :
    ∃ b1, setCell? b y x pid = some b1 := by
  obtain ⟨hlen, hrows⟩ := hwf
  have hyn : y.toNat < b.length := by omega
  obtain ⟨row, hrow⟩ : ∃ row, b.get? y.toNat = some row :=
    ⟨b.get ⟨y.toNat, hyn⟩, List.get?_eq_get hyn⟩
  have hrl : row.length = w := hrows row (List.get?_mem hrow)
  have hxn : x.toNat < row.length := by omega
  obtain ⟨cell, hcell⟩ : ∃ cell, row.get? x.toNat = some cell :=
    ⟨row.get ⟨x.toNat, hxn⟩, List.get?_eq_get hxn⟩
  refine ⟨b.set y.toNat (row.set x.toNat { cell with playerId := some pid }), ?_⟩
  unfold setCell? jsIdx?
  simp only [if_neg (show ¬y < 0 by omega), hrow,
    if_neg (show ¬x < 0 by omega), hcell]

/-- Writing a cell preserves the board shape. -/
lemma wfBoard_setCell? {b b1 : BoardData} {h w : Nat} {y x : Int} {pid : String}
    (hwf : wfBoard b h w) (hset : setCell? b y x pid = some b1) :
    wfBoard b1 h w := by
  unfold setCell? at hset
  cases hrow : jsIdx? b y with
  | none => rw [hrow] at hset; exact absurd hset (by simp)
  | some row =>
    rw [hrow] at hset
    dsimp only at hset
    cases hcell : jsIdx? row x with
    | none => rw [hcell] at hset; exact absurd hset (by simp)
    | some cell =>
      rw [hcell] at hset
      dsimp only at hset
      obtain ⟨hlen, hrows⟩ := hwf
      have hrowmem : b.get? y.toNat = some row := by
        by_cases hy : y < 0
        · rw [jsIdx?, if_pos hy] at hrow; exact absurd hrow (by simp)
        · rwa [jsIdx?, if_neg hy] at hrow
      obtain ⟨rfl⟩ := Option.some_inj.mp hset
      constructor
      · rw [List.length_set]; exact hlen
      · intro r hr
        rcases List.mem_or_eq_of_mem_set hr with hmem | rfl
        · exact hrows r hmem
        · rw [List.length_set]; exact hrows row (List.get?_mem hrowmem)

/-- Writing a cell changes exactly that cell's occupant. -/
lemma occupantAt_setCell? {b b1 : BoardData} {y x : Int} {pid : String}
    (hset : setCell? b y x pid = some b1) (y' x' : Int) :
    occupantAt b1 y' x' =
      if y' = y ∧ x' = x then some pid else occupantAt b y' x' := by
  unfold setCell? at hset
  cases hrow : jsIdx? b y with
  | none => rw [hrow] at hset; exact absurd hset (by simp)
  | some row =>
    rw [hrow] at hset
    dsimp only at hset
    cases hcell : jsIdx? row x with
    | none => rw [hcell] at hset; exact absurd hset (by simp)
    | some cell =>
      rw [hcell] at hset
      dsimp only at hset
      obtain ⟨rfl⟩ := Option.some_inj.mp hset
      have hy0 : ¬y < 0 := by
        intro hy; rw [jsIdx?, if_pos hy] at hrow; exact absurd hrow (by simp)
      have hx0 : ¬x < 0 := by
        intro hx; rw [jsIdx?, if_pos hx] at hcell; exact absurd hcell (by simp)
      have hby : b.get? y.toNat = some row := by rwa [jsIdx?, if_neg hy0] at hrow
      have hrx : row.get? x.toNat = some cell := by rwa [jsIdx?, if_neg hx0] at hcell
      unfold occupantAt boardCell? jsIdx?
      by_cases hy' : y' < 0
      · simp only [if_pos hy', if_neg (show ¬(y' = y ∧ x' = x) by omega)]
      · by_cases hyy : y'.toNat = y.toNat
        · have hyeq : y' = y := by omega
          simp only [if_neg hy', hyy, List.get?_set, eq_self_iff_true,
            if_true, hby, Option.map_eq_map, Option.map_some']
          by_cases hx' : x' < 0
          · simp only [if_pos hx', if_neg (show ¬(y' = y ∧ x' = x) by omega)]
          · by_cases hxx : x'.toNat = x.toNat
            · have hxeq : x' = x := by omega
              simp only [if_neg hx', hxx, List.get?_set, eq_self_iff_true,
                if_true, hrx, Option.map_eq_map, Option.map_some',
                if_pos (And.intro hyeq hxeq)]
            · have hxne : ¬x' = x := by omega
              simp only [if_neg hx', List.get?_set,
                if_neg (show ¬(x.toNat = x'.toNat) by omega),
                if_neg (show ¬(y' = y ∧ x' = x) by tauto)]
        · have hyne : ¬y' = y := by omega
          simp only [if_neg hy', List.get?_set,
            if_neg (show ¬(y.toNat = y'.toNat) by omega),
            if_neg (show ¬(y' = y ∧ x' = x) by tauto)]

/-- Scanning an all-empty column suffix runs the loop to exhaustion, giving
the bottom row `height - 1`. -/
lemma findEmptyLoop_all_empty {b : BoardData} {h w : Nat} (hwf : wfBoard b h w)
    {col : Int} (hc0 : 0 ≤ col) (hcw : col < (w : Int)) :
    ∀ (fuel row : Nat), row + fuel = h →
      (∀ y : Nat, row ≤ y → y < h → occupantAt b (y : Int) col = none) →
      findEmptyLoop b h col row fuel = some (some ((h : Int) - 1)) := by
  intro fuel
  induction fuel with
  | zero => intro row _ _; rfl
  | succ fuel ih =>
    intro row hrow hemp
    obtain ⟨cell, hcell⟩ := exists_boardCell?_of_wf hwf (show (0:Int) ≤ row by omega)
      (show (row : Int) < h by omega) hc0 hcw
    have hocc : occupantAt b (row : Int) col = cell.playerId := by
      unfold occupantAt; rw [hcell]
    have hnone : cell.playerId = none := by
      rw [← hocc]; exact hemp row le_rfl (by omega)
    unfold findEmptyLoop
    rw [hcell]
    dsimp only
    rw [hnone]
    simp only [Option.isSome_none, Bool.false_eq_true, if_false]
    exact ih (row + 1) (by omega) (fun y hy1 hy2 => hemp y (by omega) hy2)

/-- Scanning a column whose first occupied row is `r` returns `r - 1`. -/
lemma findEmptyLoop_first_occupied {b : BoardData} {h w : Nat}
    (hwf : wfBoard b h w) {col : Int} (hc0 : 0 ≤ col) (hcw : col < (w : Int)) :
    ∀ (fuel row r : Nat), row + fuel = h → row ≤ r → r < h →
      (occupantAt b (r : Int) col).isSome →
      (∀ y : Nat, row ≤ y → y < r → occupantAt b (y : Int) col = none) →
      findEmptyLoop b h col row fuel = some (some ((r : Int) - 1)) := by
  intro fuel
  induction fuel with
  | zero => intro row r hrow hle hlt _ _; omega
  | succ fuel ih =>
    intro row r hrow hle hlt hocc hemp
    obtain ⟨cell, hcell⟩ := exists_boardCell?_of_wf hwf (show (0:Int) ≤ row by omega)
      (show (row : Int) < h by omega) hc0 hcw
    have hoccrow : occupantAt b (row : Int) col = cell.playerId := by
      unfold occupantAt; rw [hcell]
    by_cases heq : row = r
    · subst heq
      have hsome : cell.playerId.isSome = true := by rw [← hoccrow]; exact hocc
      unfold findEmptyLoop
      rw [hcell]
      dsimp only
      simp only [hsome, if_true]
    · have hnone : cell.playerId = none := by
        rw [← hoccrow]; exact hemp row le_rfl (by omega)
      unfold findEmptyLoop
      rw [hcell]
      dsimp only
      rw [hnone]
      simp only [Option.isSome_none, Bool.false_eq_true, if_false]
      exact ih (row + 1) r (by omega) (by omega) hlt hocc
        (fun y hy1 hy2 => hemp y (by omega) hy2)

/-- Whatever target row the loop reports is an empty cell sitting on the
bottom or directly above an occupied cell, with everything at or above it in
the column empty. -/
lemma findEmptyLoop_char {b : BoardData} {h w : Nat} (hwf : wfBoard b h w)
    {col : Int} (hc0 : 0 ≤ col) (hcw : col < (w : Int)) :
    ∀ (fuel row : Nat) (t : Int), row + fuel = h →
      findEmptyLoop b h col row fuel = some (some t) →
      (t = (h : Int) - 1 ∧
        ∀ y : Nat, row ≤ y → y < h → occupantAt b (y : Int) col = none) ∨
      (∃ r : Nat, row ≤ r ∧ r < h ∧ (occupantAt b (r : Int) col).isSome ∧
        t = (r : Int) - 1 ∧
        ∀ y : Nat, row ≤ y → y < r → occupantAt b (y : Int) col = none) := by
  intro fuel
  induction fuel with
  | zero =>
    intro row t hrow heq
    left
    refine ⟨?_, fun y hy1 hy2 => by omega⟩
    unfold findEmptyLoop at heq
    simpa using heq.symm
  | succ fuel ih =>
    intro row t hrow heq
    obtain ⟨cell, hcell⟩ := exists_boardCell?_of_wf hwf (show (0:Int) ≤ row by omega)
      (show (row : Int) < h by omega) hc0 hcw
    have hoccrow : occupantAt b (row : Int) col = cell.playerId := by
      unfold occupantAt; rw [hcell]
    unfold findEmptyLoop at heq
    rw [hcell] at heq
    dsimp only at heq
    by_cases hsome : cell.playerId.isSome
    · rw [if_pos hsome] at heq
      right
      refine ⟨row, le_rfl, by omega, by rw [hoccrow]; exact hsome, ?_,
        fun y hy1 hy2 => by omega⟩
      simpa using heq.symm
    · rw [if_neg hsome] at heq
      have hnone : occupantAt b (row : Int) col = none := by
        rw [hoccrow]; exact Option.not_isSome_iff_eq_none.mp hsome
      rcases ih (row + 1) t (by omega) heq with ⟨ht, hemp⟩ | ⟨r, hr1, hr2, hr3, hr4, hemp⟩
      · left
        refine ⟨ht, fun y hy1 hy2 => ?_⟩
        rcases Nat.eq_or_lt_of_le hy1 with rfl | hlt
        · exact hnone
        · exact hemp y (by omega) hy2
      · right
        refine ⟨r, by omega, hr2, hr3, hr4, fun y hy1 hy2 => ?_⟩
        rcases Nat.eq_or_lt_of_le hy1 with rfl | hlt
        · exact hnone
        · exact hemp y (by omega) hy2

/-- `_findEmptyCellInColumn` on an entirely empty column: bottom row. -/
lemma findEmptyCellInColumn_empty {b : BoardData} {h w : Nat}
    (hwf : wfBoard b h w) {col : Int} (hc0 : 0 ≤ col) (hcw : col < (w : Int))
    (hh : 1 ≤ h)
    (hemp : ∀ y : Nat, y < h → occupantAt b (y : Int) col = none) :
    findEmptyCellInColumn b h col = some (some ((h : Int) - 1)) := by
  obtain ⟨cell0, hc⟩ := exists_boardCell?_of_wf hwf le_rfl
    (show (0 : Int) < h by omega) hc0 hcw
  have h0 : occupantAt b 0 col = cell0.playerId := by
    unfold occupantAt; rw [hc]
  have hnone : cell0.playerId = none := by
    rw [← h0]
    have := hemp 0 (by omega)
    simpa using this
  unfold findEmptyCellInColumn
  rw [hc]
  dsimp only
  rw [hnone]
  simp only [Option.isSome_none, Bool.false_eq_true, if_false]
  exact findEmptyLoop_all_empty hwf hc0 hcw h 0 (by omega)
    (fun y _ hy => hemp y hy)

/-- `_findEmptyCellInColumn` when the first occupied row (top-down) is
`r ≥ 1`: the row above, `r - 1`. -/
lemma findEmptyCellInColumn_first {b : BoardData} {h w : Nat}
    (hwf : wfBoard b h w) {col : Int} (hc0 : 0 ≤ col) (hcw : col < (w : Int))
    {r : Nat} (hrpos : 0 < r) (hrh : r < h)
    (hocc : (occupantAt b (r : Int) col).isSome)
    (hemp : ∀ y : Nat, y < r → occupantAt b (y : Int) col = none) :
    findEmptyCellInColumn b h col = some (some ((r : Int) - 1)) := by
  obtain ⟨cell0, hc⟩ := exists_boardCell?_of_wf hwf le_rfl
    (show (0 : Int) < h by omega) hc0 hcw
  have h0 : occupantAt b 0 col = cell0.playerId := by
    unfold occupantAt; rw [hc]
  have hnone : cell0.playerId = none := by
    rw [← h0]
    have := hemp 0 hrpos
    simpa using this
  unfold findEmptyCellInColumn
  rw [hc]
  dsimp only
  rw [hnone]
  simp only [Option.isSome_none, Bool.false_eq_true, if_false]
  exact findEmptyLoop_first_occupied hwf hc0 hcw h 0 r (by omega) (by omega)
    hrh hocc (fun y _ hy => hemp y hy)

/-- Whatever `_findEmptyCellInColumn` returns as a target row is an empty
in-range cell that is either the bottom row or sits directly above an
occupied cell. -/
lemma findEmptyCellInColumn_char {b : BoardData} {h w : Nat}
    (hwf : wfBoard b h w) {col : Int} (hc0 : 0 ≤ col) (hcw : col < (w : Int))
    (hh : 1 ≤ h) {t : Int}
    (heq : findEmptyCellInColumn b h col = some (some t)) :
    0 ≤ t ∧ t < (h : Int) ∧ occupantAt b t col = none ∧
      (t = (h : Int) - 1 ∨ (occupantAt b (t + 1) col).isSome) := by
  obtain ⟨cell0, hc⟩ := exists_boardCell?_of_wf hwf le_rfl
    (show (0 : Int) < h by omega) hc0 hcw
  have h0 : occupantAt b 0 col = cell0.playerId := by
    unfold occupantAt; rw [hc]
  unfold findEmptyCellInColumn at heq
  rw [hc] at heq
  dsimp only at heq
  by_cases hsome : cell0.playerId.isSome
  · rw [if_pos hsome] at heq
    exact absurd heq (by simp)
  · rw [if_neg hsome] at heq
    have hzero : occupantAt b 0 col = none := by
      rw [h0]; exact Option.not_isSome_iff_eq_none.mp hsome
    rcases findEmptyLoop_char hwf hc0 hcw h 0 t (by omega) heq with
      ⟨rfl, hemp⟩ | ⟨r, _, hr2, hr3, rfl, hemp⟩
    · have htemp : occupantAt b ((h : Int) - 1) col = none := by
        have := hemp (h - 1) (by omega) (by omega)
        have hcast : (((h - 1 : Nat) : Int)) = (h : Int) - 1 := by omega
        rwa [hcast] at this
      exact ⟨by omega, by omega, htemp, Or.inl rfl⟩
    · have hrpos : 0 < r := by
        by_contra hr0
        have : r = 0 := by omega
        subst this
        rw [show ((0 : Nat) : Int) = 0 from rfl] at hr3
        rw [hzero] at hr3
        simp at hr3
      have htemp : occupantAt b ((r : Int) - 1) col = none := by
        have := hemp (r - 1) (by omega) (by omega)
        have hcast : (((r - 1 : Nat) : Int)) = (r : Int) - 1 := by omega
        rwa [hcast] at this
      refine ⟨by omega, by omega, htemp, Or.inr ?_⟩
      have hcast : (r : Int) - 1 + 1 = (r : Int) := by omega
      rwa [hcast]

/-- The board of a game as stored, `none` when the game is missing or its
board column is NULL. -/
def gameBoard? (db : GamesDB) (gid : String) : Option BoardData :=
  match findGame db gid with
  | none => none
  | some g => g.board

/-- The columns of a `games` row that neither `_updateGameState` (whose
UPDATEs throw) nor `startTurn` (which only writes `curr_player_id`) can
change. -/
def coreCols (g : GameRecord) :
    Option BoardData × Option (List (Int × Int)) × Nat ×
      Option (List (Int × Int)) × Nat × Nat :=
  (g.board, g.placedPieces, g.gameState, g.winningSet, g.height, g.width)

lemma find?_map_update (l : List GameRecord) (gid gid2 : String)
    (f : GameRecord → GameRecord) (hid : ∀ g, (f g).id = g.id) :
    (l.map (fun g => if g.id == gid then f g else g)).find?
        (fun g => g.id == gid2) =
      (l.find? (fun g => g.id == gid2)).map
        (fun g => if g.id == gid then f g else g) := by
  induction l with
  | nil => rfl
  | cons g rest ih =>
    have hpred : ((if g.id == gid then f g else g).id == gid2) = (g.id == gid2) := by
      by_cases hg : g.id == gid
      · rw [if_pos hg, hid g]
      · rw [if_neg hg]
    simp only [List.map_cons, List.find?_cons]
    rw [hpred]
    cases hg2 : (g.id == gid2) with
    | true => simp
    | false => simpa using ih

/-- `UPDATE games ... WHERE id = gid` seen through a lookup. -/
lemma findGame_updateGameRow (db : GamesDB) (gid gid2 : String)
    (f : GameRecord → GameRecord) (hid : ∀ g, (f g).id = g.id) :
    findGame (updateGameRow db gid f) gid2 =
      (findGame db gid2).map (fun g => if g.id == gid then f g else g) := by
  unfold findGame updateGameRow
  exact find?_map_update db.games gid gid2 f hid

/-- A current-player-only update leaves the core columns alone. -/
lemma findGame_updateGameRow_core (db : GamesDB) (gid gid2 : String)
    (pids : Option String) :
    (findGame (updateGameRow db gid
        (fun gg => { gg with currPlayerId := pids })) gid2).map coreCols =
      (findGame db gid2).map coreCols := by
  rw [findGame_updateGameRow db gid gid2
    (fun gg => { gg with currPlayerId := pids }) (fun g => rfl)]
  cases findGame db gid2 with
  | none => rfl
  | some g =>
    simp only [Option.map_some']
    by_cases hg : g.id == gid
    · rw [if_pos hg]
      rfl
    · rw [if_neg hg]

/-- `startTurn` touches only `curr_player_id` (and `game_players.play_order`
on a fresh game): the board, placed pieces, lifecycle, winning set and
dimensions of every game, and the turn log, are unchanged. -/
lemma startTurn_preserves_core (rand : Nat → Nat) (db : GamesDB)
    (gid gid2 : String) :
    (findGame (startTurn rand db gid).2 gid2).map coreCols =
      (findGame db gid2).map coreCols ∧
    (startTurn rand db gid).2.turns = db.turns := by
  unfold startTurn
  cases hfg : findGame db gid with
  | none => exact ⟨rfl, rfl⟩
  | some g =>
    dsimp only
    cases hcp : g.currPlayerId with
    | none =>
      dsimp only
      exact ⟨findGame_updateGameRow_core _ gid gid2 _, rfl⟩
    | some currPid =>
      dsimp only
      cases hfind : (gamePlayersWithAi db gid).find?
          (fun o => o.playerId == currPid) with
      | none => exact ⟨rfl, rfl⟩
      | some currRow =>
        dsimp only
        by_cases hpo : currRow.playOrder =
            some (((gamePlayersWithAi db gid).length : Int) - 1)
        · rw [if_pos hpo]
          cases hzero : (gamePlayersWithAi db gid).find?
              (fun o => o.playOrder == some 0) with
          | none => exact ⟨rfl, rfl⟩
          | some zeroRow =>
            exact ⟨findGame_updateGameRow_core _ gid gid2 _, rfl⟩
        · rw [if_neg hpo]
          cases hpov : currRow.playOrder with
          | none => exact ⟨rfl, rfl⟩
          | some po =>
            dsimp only
            cases hnext : (gamePlayersWithAi db gid).find?
                (fun o => o.playOrder == some (po + 1)) with
            | none => exact ⟨rfl, rfl⟩
            | some nextRow =>
              exact ⟨findGame_updateGameRow_core _ gid gid2 _, rfl⟩

lemma gameBoard?_eq_of_core {dbA dbB : GamesDB} {gid : String}
    (hcore : (findGame dbA gid).map coreCols = (findGame dbB gid).map coreCols) :
    gameBoard? dbA gid = gameBoard? dbB gid := by
  unfold gameBoard?
  cases hA : findGame dbA gid with
  | none =>
    rw [hA] at hcore
    cases hB : findGame dbB gid with
    | none => rfl
    | some gB => rw [hB] at hcore; exact absurd hcore (by simp)
  | some gA =>
    rw [hA] at hcore
    cases hB : findGame dbB gid with
    | none => rw [hB] at hcore; exact absurd hcore (by simp)
    | some gB =>
      rw [hB] at hcore
      simp only [Option.map_some'] at hcore
      have hfst := congrArg (fun tup => tup.1) (Option.some_inj.mp hcore)
      simpa [coreCols] using hfst

/-- Whatever the commit phase does (win, tie, crash or advance the turn),
the stored board of the game afterwards is the board it re-selected. -/
lemma dropPieceCommit_board (rand : Nat → Nat) (db2 : GamesDB)
    (gid pid : String) (g2 : GameRecord) (b2 : BoardData)
    (pp2 : List (Int × Int)) (hg2 : findGame db2 gid = some g2)
    (hb2 : g2.board = some b2) (hpp2 : g2.placedPieces = some pp2) :
    gameBoard? (dropPieceCommit rand db2 gid pid).2 gid = some b2 := by
  have hboard : gameBoard? db2 gid = some b2 := by
    unfold gameBoard?
    rw [hg2]
    dsimp only
    rw [hb2]
  unfold dropPieceCommit
  rw [hg2]
  dsimp only
  rw [hb2, hpp2]
  dsimp only
  cases hcheck : checkForGameEnd b2 pp2 with
  | none => exact hboard
  | some e =>
    dsimp only
    by_cases h2 : e.state = 2
    · rw [if_pos h2]
      by_cases hwp : e.winningPlayerId ≠ some pid
      · rw [if_pos hwp]; exact hboard
      · rw [if_neg hwp]; exact hboard
    · rw [if_neg h2]
      by_cases h3 : e.state = 3
      · rw [if_pos h3]; exact hboard
      · rw [if_neg h3]
        by_cases h1 : e.state = 1
        · rw [if_pos h1]
          rw [gameBoard?_eq_of_core (startTurn_preserves_core rand db2 gid gid).1]
          exact hboard
        · rw [if_neg h1]; exact hboard

/-- Once validation passes and `_addToBoard` has written the piece, the
stored board of the game is the written board `b1`, whatever the rest of the
transaction does (win, tie, crash or `startTurn`). -/
lemma dropPiece_success_board (rand : Nat → Nat) (db : GamesDB)
    (gid pid : String) (col : Int) (g : GameRecord) (b : BoardData) (t : Int)
    (b1 : BoardData)
    (hg : findGame db gid = some g) (hb : g.board = some b)
    (hs : g.gameState = 1) (hc : g.currPlayerId = some pid)
    (hcol : ¬(col < 0 ∨ col > (g.width : Int) - 1))
    (hfind : findEmptyCellInColumn b g.height col = some (some t))
    (hset : setCell? b t col pid = some b1) :
    gameBoard? (dropPiece rand db gid pid col).2 gid = some b1 := by
  have hfind2 : List.find? (fun gg => gg.id == gid) db.games = some g := hg
  have hgid0 := List.find?_some hfind2
  have hgid : (g.id == gid) = true := hgid0
  obtain ⟨pp1, hpp1⟩ : ∃ pp1,
      (match g.placedPieces with
        | none => [(t, col)]
        | some pp => pp ++ [(t, col)]) = pp1 := ⟨_, rfl⟩
  have hfg1 : findGame (updateGameRow db gid
      (fun gg => { gg with board := some b1, placedPieces := some pp1 })) gid =
      some { g with board := some b1, placedPieces := some pp1 } := by
    rw [findGame_updateGameRow db gid gid
      (fun gg => { gg with board := some b1, placedPieces := some pp1 })
      (fun _ => rfl), hg, Option.map_some', if_pos hgid]
  simp only [dropPiece, hg, hb, hs, hc, hcol, hfind, hset, hpp1]
  rw [if_neg (by simp), if_neg (by simp), if_neg (by simp), if_neg (by simp)]
  exact dropPieceCommit_board rand _ gid pid
    { g with board := some b1, placedPieces := some pp1 } b1 pp1 hfg1 rfl rfl

/-- C2: gravity placement.  For a started game whose caller is the current
player, on a well-formed board: an out-of-bounds column fails
`invalidPiecePlacement`; a full column (row 0 occupied) fails
`invalidPiecePlacement`; an empty column receives the piece at the bottom
row `height - 1`; otherwise the piece lands at the row immediately above the
first occupied row scanning from the top. -/
theorem dropPiece_gravity_placement (rand : Nat → Nat) (db : GamesDB)
    (gid pid : String) (col : Int) (g : GameRecord) (b : BoardData)
    (hg : findGame db gid = some g) (hb : g.board = some b)
    (hs : g.gameState = 1) (hc : g.currPlayerId = some pid)
    (hwf : wfBoard b g.height g.width) (hh : 1 ≤ g.height) :
    ((col < 0 ∨ col > (g.width : Int) - 1) →
      dropPiece rand db gid pid col = (some GameError.invalidPiecePlacement, db)) ∧
    (0 ≤ col → col < (g.width : Int) →
      ((occupantAt b 0 col).isSome →
        dropPiece rand db gid pid col = (some GameError.invalidPiecePlacement, db)) ∧
      ((∀ y : Nat, y < g.height → occupantAt b (y : Int) col = none) →
        (gameBoard? (dropPiece rand db gid pid col).2 gid).map
            (fun bb => occupantAt bb ((g.height : Int) - 1) col) =
          some (some pid)) ∧
      (∀ r : Nat, 0 < r → r < g.height → (occupantAt b (r : Int) col).isSome →
        (∀ y : Nat, y < r → occupantAt b (y : Int) col = none) →
        (gameBoard? (dropPiece rand db gid pid col).2 gid).map
            (fun bb => occupantAt bb ((r : Int) - 1) col) =
          some (some pid))) := by
  refine ⟨?_, fun h0 h1 => ⟨?_, ?_, ?_⟩⟩
  · intro hcol
    simp [dropPiece, hg, hb, hs, hc, hcol]
  · intro hfull
    have hcol : ¬(col < 0 ∨ col > (g.width : Int) - 1) := by omega
    simp [dropPiece, hg, hb, hs, hc, hcol, findEmptyCellInColumn_full hfull]
  · intro hemp
    have hcol : ¬(col < 0 ∨ col > (g.width : Int) - 1) := by omega
    have hfind := findEmptyCellInColumn_empty hwf h0 h1 hh hemp
    obtain ⟨b1, hset⟩ := setCell?_isSome_of_wf hwf
      (show (0 : Int) ≤ (g.height : Int) - 1 by omega)
      (show (g.height : Int) - 1 < (g.height : Int) by omega) h0 h1 pid
    rw [dropPiece_success_board rand db gid pid col g b _ b1 hg hb hs hc hcol
      hfind hset]
    simp only [Option.map_some']
    rw [occupantAt_setCell? hset, if_pos ⟨rfl, rfl⟩]
  · intro r hr0 hrh hocc hemp
    have hcol : ¬(col < 0 ∨ col > (g.width : Int) - 1) := by omega
    have hfind := findEmptyCellInColumn_first hwf h0 h1 hr0 hrh hocc hemp
    obtain ⟨b1, hset⟩ := setCell?_isSome_of_wf hwf
      (show (0 : Int) ≤ (r : Int) - 1 by omega)
      (show (r : Int) - 1 < (g.height : Int) by omega) h0 h1 pid
    rw [dropPiece_success_board rand db gid pid col g b _ b1 hg hb hs hc hcol
      hfind hset]
    simp only [Option.map_some']
    rw [occupantAt_setCell? hset, if_pos ⟨rfl, rfl⟩]

/-- The position after the first drop of the C2 scenario: `A` at `(5, 0)`,
with `B` to move. -/
def occSecond (y x : Nat) : Option String :=
  if y = 5 ∧ x = 0 then some "A" else none

/-- The `games` row of `dbSecondDrop`. -/
def gSecondDrop : GameRecord :=
  { id := "g1", height := 6, width := 7, gameState := 1,
    placedPieces := some [(5, 0)], board := some (boardWith occSecond),
    winningSet := none, currPlayerId := some "B" }

/-- The C2 scenario game after one drop in column 0. -/
def dbSecondDrop : GamesDB :=
  { games := [gSecondDrop],
    players := [{ id := "A", ai := false }, { id := "B", ai := false }],
    gamePlayers := [{ playerId := "A", gameId := "g1", playOrder := some 0 },
                    { playerId := "B", gameId := "g1", playOrder := some 1 }],
    turns := [{ gameId := "g1", playerId := "A", location := (5, 0) }] }

/-- Witness for C2: on the empty 6-row board the first drop in column 0
lands at row 5 (the bottom), and the second drop in column 0 lands at
row 4. -/
theorem dropPiece_gravity_placement_witness :
    (gameBoard? (dropPiece (fun _ => 0) dbEmptyStart "g1" "A" 0).2 "g1").map
        (fun bb => occupantAt bb 5 0) = some (some "A") ∧
    (gameBoard? (dropPiece (fun _ => 0) dbSecondDrop "g1" "B" 0).2 "g1").map
        (fun bb => occupantAt bb 4 0) = some (some "B") := by
  constructor
  · have h := (dropPiece_gravity_placement (fun _ => 0) dbEmptyStart "g1" "A" 0
      gEmptyStart (createInitializedBoard 6 7) (by decide) (by decide)
      (by decide) (by decide) ⟨by decide, by decide⟩ (by decide)).2
      (by decide) (by decide)
    have h2 := h.2.1 (by decide)
    simpa using h2
  · have h := (dropPiece_gravity_placement (fun _ => 0) dbSecondDrop "g1" "B" 0
      gSecondDrop (boardWith occSecond) (by decide) (by decide)
      (by decide) (by decide) ⟨by decide, by decide⟩ (by decide)).2
      (by decide) (by decide)
    have h2 := h.2.2 5 (by decide) (by decide) (by decide) (by decide)
    simpa using h2

/-- No empty cell below an occupied cell: whenever a cell is occupied and a
row exists below it (larger row index, row 0 being the top), the cell below
is occupied too. -/
def contiguousBoard (b : BoardData) : Prop :=
  ∀ y x : Int, y + 1 < (b.length : Int) →
    (occupantAt b y x).isSome → (occupantAt b (y + 1) x).isSome

/-- A fresh board is empty everywhere (in and out of range). -/
lemma occupantAt_createInitializedBoard (h w : Nat) (y x : Int) :
    occupantAt (createInitializedBoard h w) y x = none := by
  unfold occupantAt
  rw [boardCell?_createInitializedBoard]
  by_cases hc : 0 ≤ y ∧ y < (h : Int) ∧ 0 ≤ x ∧ x < (w : Int)
  · rw [if_pos hc]
  · rw [if_neg hc]

/-- A fresh board is (vacuously) contiguous. -/
lemma contiguousBoard_createInitializedBoard (h w : Nat) :
    contiguousBoard (createInitializedBoard h w) := by
  intro y x _ hocc
  rw [occupantAt_createInitializedBoard] at hocc
  simp at hocc

/-- The invariant carried through piece drops: the stored board is
well-formed for the stored dimensions and has contiguous columns. -/
def DropInv (db : GamesDB) (gid : String) : Prop :=
  ∀ g, findGame db gid = some g → ∀ b, g.board = some b →
    wfBoard b g.height g.width ∧ contiguousBoard b

/-- The commit phase never touches board, placed pieces, lifecycle, winning
set or dimensions of any game. -/
lemma dropPieceCommit_core (rand : Nat → Nat) (db2 : GamesDB)
    (gid pid gid2 : String) :
    (findGame (dropPieceCommit rand db2 gid pid).2 gid2).map coreCols =
      (findGame db2 gid2).map coreCols := by
  unfold dropPieceCommit
  cases hg2 : findGame db2 gid with
  | none => rfl
  | some g2 =>
    dsimp only
    cases hbo : g2.board with
    | none => rfl
    | some b2 =>
      cases hpp : g2.placedPieces with
      | none => rfl
      | some pp2 =>
        dsimp only
        cases hcheck : checkForGameEnd b2 pp2 with
        | none => rfl
        | some e =>
          dsimp only
          by_cases h2 : e.state = 2
          · rw [if_pos h2]
            by_cases hwp : e.winningPlayerId ≠ some pid
            · rw [if_pos hwp]
            · rw [if_neg hwp]
          · rw [if_neg h2]
            by_cases h3 : e.state = 3
            · rw [if_pos h3]
            · rw [if_neg h3]
              by_cases h1 : e.state = 1
              · rw [if_pos h1]
                exact (startTurn_preserves_core rand db2 gid gid2).1
              · rw [if_neg h1]

/-- The drop invariant only depends on the core columns. -/
lemma dropInv_of_core {dbA dbB : GamesDB} {gid : String}
    (hcore : (findGame dbA gid).map coreCols = (findGame dbB gid).map coreCols)
    (hinv : DropInv dbB gid) : DropInv dbA gid := by
  intro g hg b hb
  cases hB : findGame dbB gid with
  | none => rw [hg, hB] at hcore; exact absurd hcore (by simp)
  | some gB =>
    rw [hg, hB] at hcore
    simp only [Option.map_some'] at hcore
    have hcc := Option.some_inj.mp hcore
    have hboard : g.board = gB.board := congrArg (fun tup => tup.1) hcc
    have hht : g.height = gB.height :=
      congrArg (fun tup => tup.2.2.2.2.1) hcc
    have hwd : g.width = gB.width :=
      congrArg (fun tup => tup.2.2.2.2.2) hcc
    have hres := hinv gB hB b (by rw [← hboard, hb])
    rw [hht, hwd]
    exact hres

/-- Every `dropPiece` call — successful or not — preserves the contiguity
invariant: validation failures leave the store unchanged, and a placement
goes to the gravity target, which is the bottom of the column or directly
above the topmost occupied cell. -/
lemma dropPiece_preserves_inv (rand : Nat → Nat) (db : GamesDB)
    (gid pid : String) (col : Int) (hinv : DropInv db gid) :
    DropInv (dropPiece rand db gid pid col).2 gid := by
  cases hg : findGame db gid with
  | none => simp only [dropPiece, hg]; exact hinv
  | some g =>
    simp only [dropPiece, hg]
    by_cases hb0 : g.board = none
    · rw [if_pos hb0]; exact hinv
    · rw [if_neg hb0]
      by_cases hs : g.gameState ≠ 1
      · rw [if_pos hs]; exact hinv
      · rw [if_neg hs]
        by_cases hc : g.currPlayerId ≠ some pid
        · rw [if_pos hc]; exact hinv
        · rw [if_neg hc]
          by_cases hcol : col < 0 ∨ col > (g.width : Int) - 1
          · rw [if_pos hcol]; exact hinv
          · rw [if_neg hcol]
            obtain ⟨b, hb⟩ : ∃ b, g.board = some b := by
              cases hbo : g.board with
              | none => exact absurd hbo hb0
              | some b => exact ⟨b, rfl⟩
            rw [hb]
            dsimp only
            cases hfe : findEmptyCellInColumn b g.height col with
            | none => exact hinv
            | some tOpt =>
              cases tOpt with
              | none => exact hinv
              | some t =>
                dsimp only
                cases hset : setCell? b t col pid with
                | none => exact hinv
                | some b1 =>
                  dsimp only
                  obtain ⟨hwf, hcont⟩ := hinv g hg b hb
                  have hfind2 : List.find? (fun gg => gg.id == gid) db.games =
                      some g := hg
                  have hgid0 := List.find?_some hfind2
                  have hgid : (g.id == gid) = true := hgid0
                  have hh : 1 ≤ g.height := by
                    by_contra hh0
                    have hbemp : b = [] := by
                      have := hwf.1
                      exact List.length_eq_zero.mp (by omega)
                    rw [hbemp] at hfe
                    simp [findEmptyCellInColumn, boardCell?, jsIdx?] at hfe
                  have h0col : 0 ≤ col := by omega
                  have h1col : col < (g.width : Int) := by omega
                  have hchar := findEmptyCellInColumn_char hwf h0col h1col hh hfe
                  obtain ⟨pp1, hpp1⟩ : ∃ pp1,
                      (match g.placedPieces with
                        | none => [(t, col)]
                        | some pp => pp ++ [(t, col)]) = pp1 := ⟨_, rfl⟩
                  rw [hpp1]
                  apply dropInv_of_core (dropPieceCommit_core rand _ gid pid gid)
                  have hfg1 : findGame (updateGameRow db gid
                      (fun gg => { gg with board := some b1, placedPieces := some pp1 })) gid =
                      some { g with board := some b1, placedPieces := some pp1 } := by
                    rw [findGame_updateGameRow db gid gid
                      (fun gg => { gg with board := some b1, placedPieces := some pp1 })
                      (fun _ => rfl), hg, Option.map_some', if_pos hgid]
                  intro g' hg' b' hb'
                  have hgeq : some { g with board := some b1, placedPieces := some pp1 } = some g' :=
                    Eq.trans hfg1.symm hg'
                  obtain rfl := Option.some_inj.mp hgeq
                  have hbeq : some b1 = some b' := hb'
                  obtain rfl := Option.some_inj.mp hbeq
                  have hwf1 : wfBoard b1 g.height g.width :=
                    wfBoard_setCell? hwf hset
                  refine ⟨hwf1, ?_⟩
                  intro y x hy hocc
                  have hlen1 : b1.length = g.height := hwf1.1
                  have hlen : b.length = g.height := hwf.1
                  rw [occupantAt_setCell? hset] at hocc
                  rw [occupantAt_setCell? hset]
                  by_cases hyx : y = t ∧ x = col
                  · obtain ⟨rfl, rfl⟩ := hyx
                    rw [if_neg (by intro hcontra; omega)]
                    rcases hchar.2.2.2 with h1 | h2
                    · exfalso; omega
                    · exact h2
                  · rw [if_neg hyx] at hocc
                    by_cases hyx2 : y + 1 = t ∧ x = col
                    · rw [if_pos hyx2]; simp
                    · rw [if_neg hyx2]
                      exact hcont y x (by omega) hocc

/-- Running a sequence of `dropPiece` calls on one game, keeping the store
each produces. -/
def applyMoves (rand : Nat → Nat) (db : GamesDB) (gid : String) :
    List (String × Int) → GamesDB
  | [] => db
  | m :: ms => applyMoves rand (dropPiece rand db gid m.1 m.2).2 gid ms

/-- Every call of the sequence returned without an error. -/
def movesSucceed (rand : Nat → Nat) (db : GamesDB) (gid : String) :
    List (String × Int) → Bool
  | [] => true
  | m :: ms =>
    match dropPiece rand db gid m.1 m.2 with
    | (none, db') => movesSucceed rand db' gid ms
    | (some _, _) => false

lemma applyMoves_inv (rand : Nat → Nat) (gid : String) :
    ∀ (moves : List (String × Int)) (db : GamesDB), DropInv db gid →
      DropInv (applyMoves rand db gid moves) gid
  | [], _, hinv => hinv
  | m :: ms, db, hinv =>
    applyMoves_inv rand gid ms _
      (dropPiece_preserves_inv rand db gid m.1 m.2 hinv)

/-- C10: after any sequence of successful `dropPiece` calls on a started
game whose board is well-formed and contiguous (as a freshly started game's
empty board is), the stored board still has contiguous columns: there is
never an empty cell below an occupied cell, so the top row fills last. -/
theorem dropPiece_keeps_columns_contiguous (rand : Nat → Nat) (db : GamesDB)
    (gid : String) (g : GameRecord) (b : BoardData)
    (moves : List (String × Int))
    (hg : findGame db gid = some g) (hb : g.board = some b)
    (hwf : wfBoard b g.height g.width) (hcont : contiguousBoard b)
    (hsucc : movesSucceed rand db gid moves = true) :
    ∀ g' b', findGame (applyMoves rand db gid moves) gid = some g' →
      g'.board = some b' → contiguousBoard b' := by
  have hinv : DropInv db gid := by
    intro g0 hg0 b0 hb0
    rw [hg] at hg0
    obtain rfl := Option.some_inj.mp hg0
    rw [hb] at hb0
    obtain rfl := Option.some_inj.mp hb0
    exact ⟨hwf, hcont⟩
  have hfin := applyMoves_inv rand gid moves db hinv
  intro g' b' hg' hb'
  exact (hfin g' hg' b' hb').2

/-- Witness for C10: one successful drop on the fresh 6×7 game leads to the
position with `A` at `(5, 0)`, whose columns are contiguous. -/
theorem dropPiece_keeps_columns_contiguous_witness :
    movesSucceed (fun _ => 0) dbEmptyStart "g1" [("A", 0)] = true ∧
    contiguousBoard (boardWith occSecond) :=
  ⟨by decide,
   dropPiece_keeps_columns_contiguous (fun _ => 0) dbEmptyStart "g1"
     gEmptyStart (createInitializedBoard 6 7) [("A", 0)] (by decide)
     (by decide) ⟨by decide, by decide⟩
     (contiguousBoard_createInitializedBoard 6 7) (by decide)
     gSecondDrop (boardWith occSecond) (by decide) (by decide)⟩
